import Mathlib

/-! # infrakit: plugin server lifecycle and the Group RPC adapter

A shallow embedding of `rpc/server.go` (`StartPluginAtPath`, `runJSONRPCServer`,
the exit switch shared with `runHTTP`) and of `rpc/group/service.go`.

Goroutines are embedded as a transition system: one `Action` is one scheduling
decision of the Go runtime or of the environment (a signal, an `Accept` result,
the goroutine that closes the listener, the coordinator, the caller closing the
stop channel or receiving the outcome).  Go values of
type `error` are `Option GoError`, `none` being `nil`.  A runtime panic is the
`Except.error` result of a transition.
-/

namespace Infrakit

/-! ## Go values -/

/-- A non-nil Go `error`. -/
structure GoError where
  msg : String
deriving DecidableEq, Repr

/-- Go's `error` interface value; `none` is `nil`. -/
abbrev Err := Option GoError

/-- A Go runtime panic. -/
inductive Panic
  | closeOfClosedChannel
  | raised (e : GoError)
deriving DecidableEq, Repr

/-- The signals registered with `signal.Notify` (server.go lines 47-51). -/
inductive Signal
  | SIGHUP
  | SIGINT
  | SIGQUIT
  | SIGABRT
  | SIGTERM
deriving DecidableEq, Repr

/-! ## rpc/server.go: `runJSONRPCServer` -/

/-- One result of `listener.Accept()` (line 94). -/
inductive AcceptResult
  | conn (c : Nat)
  | fail (e : GoError)
deriving DecidableEq, Repr

/-- How a serving goroutine leaves its exit switch. -/
inductive LoopExit
  | panicked (e : GoError)
  | reported (v : Err)
deriving DecidableEq, Repr

/-- The `switch` of lines 103-110 (and of lines 151-158 in `runHTTP`), as a
function of the flag `*userInitiated` and of the variable `err` in scope:
`case !*userInitiated && err != nil: panic(err)`,
`case *userInitiated: stopped <- nil`, `default: stopped <- err`. -/
def exitSwitch (userInitiated : Bool) (err : Err) : LoopExit :=
  match (!userInitiated), err with
  | true, some e => .panicked e
  | _, _ => if userInitiated then .reported none else .reported err

/-- The serving goroutine of `runHTTP` (lines 145-159): `err := server.Serve(listener)`
is declared in the goroutine body, so the switch reads the error `Serve` returned. -/
def runHTTPExit (userInitiated : Bool) (serveErr : Err) : LoopExit :=
  exitSwitch userInitiated serveErr

/-- Where the accept goroutine (lines 91-111) stands. -/
inductive AcceptState
  | accepting
  | sending (v : Err)
  | exited
deriving DecidableEq, Repr

/-- The locals of `runJSONRPCServer` shared by its two goroutines.
`err` is the function-level variable of line 76, which the closure of lines
91-111 captures; `stopClosed` is the state of the channel `stop`. -/
structure Engine where
  err : Err
  stopClosed : Bool
  userInitiated : Bool
  listenerClosed : Bool
  accept : AcceptState
  served : List Nat
deriving DecidableEq, Repr

/-- The accept goroutine once `Accept` has returned an error (lines 95-97, then
103-110).  `conn, err := listener.Accept()` sits inside the `for` body, so it
declares a loop-local `err`; after `break` that variable is out of scope and the
`err` the switch reads is the function-level one of line 76. -/
def Engine.acceptFailed (eng : Engine) (_acceptErr : GoError) : LoopExit :=
  exitSwitch eng.userInitiated eng.err

/-- One return of `listener.Accept()` delivered to the accept goroutine: a
connection is handed to `go server.ServeCodec` and the loop continues; an error
breaks the loop and runs the switch, leaving the goroutine blocked on its send
or the process panicking. -/
def Engine.onAccept (eng : Engine) (r : AcceptResult) : Except Panic Engine :=
  match eng.accept with
  | .accepting =>
    match r with
    | .conn c => .ok { eng with served := eng.served ++ [c] }
    | .fail e =>
      match eng.acceptFailed e with
      | .panicked p => .error (.raised p)
      | .reported v => .ok { eng with accept := .sending v }
  | _ => .ok eng

/-- Builtin `close(stop)`: closing a closed channel panics. -/
def Engine.closeStop (eng : Engine) : Except Panic Engine :=
  if eng.stopClosed then .error .closeOfClosedChannel
  else .ok { eng with stopClosed := true }

/-- The body of the goroutine of lines 85-89 after `<-stop` has returned:
`*userInitiated = true; listener.Close()`. -/
def Engine.closer (eng : Engine) : Engine :=
  { eng with userInitiated := true, listenerClosed := true }

/-- The goroutine of lines 85-89 when scheduled: `<-stop` returns only once
`stop` is closed, and the body runs once. -/
def Engine.runCloser (eng : Engine) : Engine :=
  if eng.stopClosed && !eng.userInitiated then eng.closer else eng

/-- The receive `err := <-engineStopped` of line 39, made after `close(engineStop)`.
An accept goroutine already blocked on its send (lines 107/109) hands over its
value at once: the receive completes whether or not the goroutine of lines 85-89
has run yet.  An accept goroutine still in `Accept` sends only after `Accept`
has returned an error, which it does once the goroutine of lines 85-89 has set
the flag and closed the listener: that goroutine runs, `Accept` returns
`acceptErr`, the switch runs and the value is handed over.  After the deferred
`close(stopped)` the receive yields the zero value. -/
def Engine.awaitStopped (eng : Engine) (acceptErr : GoError) : Except Panic (Engine × Err) :=
  match eng.accept with
  | .accepting =>
    match eng.closer.acceptFailed acceptErr with
    | .panicked p => .error (.raised p)
    | .reported v => .ok ({ eng.closer with accept := .exited }, v)
  | .sending v => .ok ({ eng with accept := .exited }, v)
  | .exited => .ok (eng, none)

/-- Goroutines started with `go`. -/
inductive Goroutine
  | closer
  | acceptLoop
  | coordinator
deriving DecidableEq, Repr

/-- What the operating system answers during start-up and shutdown. -/
structure Env where
  register : Err
  listen : Err
  acceptOnClose : GoError
deriving DecidableEq, Repr

/-- `runJSONRPCServer` (lines 75-113): the goroutines it starts and its result.
Past line 79 the function-level `err` is `nil`. -/
def runJSONRPCServer (env : Env) : List Goroutine × Except GoError Engine :=
  match env.listen with
  | some e => ([], .error e)
  | none =>
    ([.closer, .acceptLoop],
      .ok { err := none, stopClosed := false, userInitiated := false,
            listenerClosed := false, accept := .accepting, served := [] })

/-! ## rpc/server.go: `StartPluginAtPath` -/

/-- Observable steps of the shutdown sequence. `invoke i` is the call `task()`
of line 63 for the task at position `i` of the slice. -/
inductive Event
  | invoke (i : Nat)
  | closeEngineStop
  | recvEngineStopped (v : Err)
deriving DecidableEq, Repr

/-- The state shutdown tasks act on: the state of the caller (reachable from the
closures the caller supplied), the engine, and the log of events. -/
structure World (σ : Type) where
  user : σ
  engine : Engine
  trace : List Event

/-- A `func() error` of the slice `shutdownTasks`. -/
abbrev Task (σ : Type) := World σ → Except Panic (World σ × Err)

/-- A caller-supplied `func() error`: it acts on the state of the caller only. -/
def callerTask {σ : Type} (f : σ → σ × Err) : Task σ :=
  fun w => .ok ({ w with user := (f w.user).1 }, (f w.user).2)

/-- The closure of lines 36-41: `close(engineStop); err := <-engineStopped; return err`. -/
def closeListenerTask {σ : Type} (acceptErr : GoError) : Task σ :=
  fun w =>
    match w.engine.closeStop with
    | .error p => .error p
    | .ok eng1 =>
      match eng1.awaitStopped acceptErr with
      | .error p => .error p
      | .ok (eng2, v) =>
        .ok ({ w with engine := eng2,
                      trace := w.trace ++ [.closeEngineStop, .recvEngineStopped v] }, v)

/-- Lines 31-41: the caller's functions in the order given, then the closure
that closes the listener. -/
def shutdownTasks {σ : Type} (env : Env) (shutdown : List (σ → σ × Err)) : List (Task σ) :=
  shutdown.map callerTask ++ [closeListenerTask env.acceptOnClose]

/-- The loop of lines 62-67, from position `i` on: the first non-nil error ends it. -/
def runTasks {σ : Type} : List (Task σ) → Nat → World σ → Except Panic (World σ × Err)
  | [], _, w => .ok (w, none)
  | task :: rest, i, w =>
    match task { w with trace := w.trace ++ [.invoke i] } with
    | .error p => .error p
    | .ok (w1, some e) => .ok (w1, some e)
    | .ok (w1, none) => runTasks rest (i + 1) w1

/-- Where the goroutine of lines 55-69 stands: blocked in `select`, blocked on
`stopped <- err`, or returned (the deferred `close(stopped)` has run). -/
inductive Coordinator
  | selecting
  | sending (e : GoError)
  | finished
deriving DecidableEq, Repr

/-- A started server: the slice handed to the coordinator, the world, the buffer
of `fromKernel` (capacity 1), the state of `fromUser`, the coordinator, and the
values the caller has received from the outcome channel. -/
structure Server (σ : Type) where
  tasks : List (Task σ)
  world : World σ
  fromKernel : List Signal
  fromUserClosed : Bool
  coordinator : Coordinator
  received : List Err

/-- `StartPluginAtPath` (lines 18-72): the goroutines started and either the
error returned with two nil channels, or the running server behind the two
channels returned. -/
def StartPluginAtPath {σ : Type} (env : Env) (shutdown : List (σ → σ × Err)) (s0 : σ) :
    List Goroutine × Except GoError (Server σ) :=
  match env.register with
  | some e => ([], .error e)
  | none =>
    match runJSONRPCServer env with
    | (gs, .error e) => (gs, .error e)
    | (gs, .ok eng) =>
      (gs ++ [.coordinator],
        .ok { tasks := shutdownTasks env shutdown,
              world := { user := s0, engine := eng, trace := [] },
              fromKernel := [], fromUserClosed := false,
              coordinator := .selecting, received := [] })

/-- One scheduling decision. -/
inductive Action
  | closeStop
  | signal (sg : Signal)
  | accept (r : AcceptResult)
  | closer
  | schedule (kernelFirst : Bool)
  | recvOutcome
deriving DecidableEq, Repr

/-- The coordinator goroutine (lines 55-69) when scheduled: `select` blocks
until `fromKernel` holds a signal or `fromUser` is closed, takes one ready case
(`kernelFirst` decides when both are), then the task loop runs up to its return
or its blocked send.  The loop is one action: the caller's tasks do not read the
engine, so an `accept` arriving between two tasks acts as one arriving before
the loop. -/
def Server.runCoordinator {σ : Type} (s : Server σ) (kernelFirst : Bool) :
    Except Panic (Server σ) :=
  match s.coordinator with
  | .selecting =>
    let kernelReady := !s.fromKernel.isEmpty
    let userReady := s.fromUserClosed
    if !(kernelReady || userReady) then .ok s
    else
      let s1 := if kernelReady && (kernelFirst || !userReady)
        then { s with fromKernel := s.fromKernel.tail } else s
      match runTasks s1.tasks 0 s1.world with
      | .error p => .error p
      | .ok (w, some e) => .ok { s1 with world := w, coordinator := .sending e }
      | .ok (w, none) => .ok { s1 with world := w, coordinator := .finished }
  | _ => .ok s

/-- One transition of the started server. -/
def step {σ : Type} (s : Server σ) : Action → Except Panic (Server σ)
  | .closeStop =>
    if s.fromUserClosed then .error .closeOfClosedChannel
    else .ok { s with fromUserClosed := true }
  | .signal sg =>
    if s.fromKernel.length < 1 then .ok { s with fromKernel := s.fromKernel ++ [sg] }
    else .ok s
  | .accept r =>
    match s.world.engine.onAccept r with
    | .error p => .error p
    | .ok eng => .ok { s with world := { s.world with engine := eng } }
  | .closer => .ok { s with world := { s.world with engine := s.world.engine.runCloser } }
  | .schedule kernelFirst => s.runCoordinator kernelFirst
  | .recvOutcome =>
    match s.coordinator with
    | .selecting => .ok s
    | .sending e => .ok { s with received := s.received ++ [some e], coordinator := .finished }
    | .finished => .ok { s with received := s.received ++ [none] }

/-- A schedule, run from a state; a panic ends the process. -/
def exec {σ : Type} (s : Server σ) : List Action → Except Panic (Server σ)
  | [] => .ok s
  | a :: rest =>
    match step s a with
    | .error p => .error p
    | .ok s1 => exec s1 rest

/-- Start the server and run a schedule on it; `none` when start-up returned an error. -/
def launch {σ : Type} (env : Env) (shutdown : List (σ → σ × Err)) (s0 : σ)
    (sched : List Action) : Option (Except Panic (Server σ)) :=
  match (StartPluginAtPath env shutdown s0).2 with
  | .error _ => none
  | .ok srv => some (exec srv sched)

/-! ### Vocabulary of the statements -/

/-- Every function of the list returns `nil` when the list is run in order from `s`. -/
def allSucceed {σ : Type} : List (σ → σ × Err) → σ → Bool
  | [], _ => true
  | f :: fs, s => (f s).2.isNone && allSucceed fs (f s).1

/-- The state of the caller after each function of the list ran once, in order. -/
def runAll {σ : Type} (fs : List (σ → σ × Err)) (s : σ) : σ :=
  fs.foldl (fun acc f => (f acc).1) s

/-- The positions invoked, in the order of invocation. -/
def invoked : List Event → List Nat
  | [] => []
  | .invoke i :: rest => i :: invoked rest
  | _ :: rest => invoked rest

/-- How far a schedule has got from stage `k`: 0 no trigger yet, 1 a trigger has
arrived, 2 the coordinator was scheduled after a trigger, 3 the caller received
from the outcome channel after that. -/
def advance (k : Nat) (a : Action) : Nat :=
  match k, a with
  | 0, .closeStop => 1
  | 0, .signal _ => 1
  | 1, .schedule _ => 2
  | 2, .recvOutcome => 3
  | k, _ => k

/-- The stage a whole schedule reaches from stage `k`. -/
def progress : Nat → List Action → Nat
  | k, [] => k
  | k, a :: rest => progress (advance k a) rest

/-- A trigger arrives and the coordinator is scheduled at some point after it. -/
def fires (sched : List Action) : Bool := decide (2 ≤ progress 0 sched)

/-- As `fires`, and the caller receives from the outcome channel after that. -/
def observes (sched : List Action) : Bool := decide (3 ≤ progress 0 sched)

/-- The stage a server state stands at, on the scale of `advance`. -/
def Server.stage {σ : Type} (s : Server σ) : Nat :=
  match s.coordinator with
  | .selecting => if s.fromUserClosed || !s.fromKernel.isEmpty then 1 else 0
  | .sending _ => 2
  | .finished => if s.received.isEmpty then 2 else 3

/-- One front-to-back pass over the slice built from `fs`, started at position
`i` in caller state `s`: the caller state it leaves, the events it logs, and the
error it ends with.  Used to state the invariant of the transition system. -/
def pass {σ : Type} : List (σ → σ × Err) → Nat → σ → σ × List Event × Err
  | [], i, s => (s, [.invoke i, .closeEngineStop, .recvEngineStopped none], none)
  | f :: fs, i, s =>
    match (f s).2 with
    | some e => ((f s).1, [.invoke i], some e)
    | none =>
      ((pass fs (i + 1) (f s).1).1, .invoke i :: (pass fs (i + 1) (f s).1).2.1,
        (pass fs (i + 1) (f s).1).2.2)

/-- The world after the one pass of the coordinator. -/
def Ran {σ : Type} (shutdown : List (σ → σ × Err)) (s0 : σ) (w : World σ) : Prop :=
  w.user = (pass shutdown 0 s0).1 ∧ w.trace = (pass shutdown 0 s0).2.1 ∧
  ((pass shutdown 0 s0).2.2 = none →
    w.engine.stopClosed = true ∧ w.engine.accept = .exited)

/-- What holds of a reachable state as long as `Accept` has returned no error of
its own: the accept goroutine is in `Accept` until the coordinator runs, and once
the engine stop channel is closed the flag is set and the listener closed. -/
def Quiet {σ : Type} (s : Server σ) : Prop :=
  match s.coordinator with
  | .selecting => s.world.engine.accept = .accepting
  | _ => s.world.engine.stopClosed = true →
      s.world.engine.userInitiated = true ∧ s.world.engine.listenerClosed = true

/-- The invariant of every state reachable from a started server. -/
def Inv {σ : Type} (env : Env) (shutdown : List (σ → σ × Err)) (s0 : σ) (s : Server σ) : Prop :=
  s.tasks = shutdownTasks env shutdown ∧ s.world.engine.err = none ∧
  match s.coordinator with
  | .selecting =>
    s.world.user = s0 ∧ s.world.trace = [] ∧ s.world.engine.stopClosed = false ∧
    (s.world.engine.accept = .accepting ∨ s.world.engine.accept = .sending none) ∧
    s.received = []
  | .sending e =>
    Ran shutdown s0 s.world ∧ (pass shutdown 0 s0).2.2 = some e ∧ s.received = []
  | .finished =>
    Ran shutdown s0 s.world ∧
    ((s.received = [] ∧ (pass shutdown 0 s0).2.2 = none) ∨
      s.received.head? = some (pass shutdown 0 s0).2.2)

/-! ## rpc/group: the Group RPC adapter

The types `group.Spec`, `group.ID`, `group.Description` and the interface
`group.Plugin` come from package `spi/group`; they are parameters here.  A
plugin operation may change the state `π` of the plugin. -/

namespace GroupRPC

/-- The operations of `group.Plugin` that `service.go` calls, with the
signatures of the call sites. -/
structure Plugin (S I D π : Type) where
  CommitGroup : S → Bool → π → (String × Err) × π
  FreeGroup : I → π → Err × π
  DescribeGroup : I → π → (D × Err) × π
  DestroyGroup : I → π → Err × π
  InspectGroups : π → (List S × Err) × π

structure CommitGroupRequest (S : Type) where
  Spec : S
  Pretend : Bool

structure CommitGroupResponse where
  Details : String
deriving DecidableEq, Repr

structure FreeGroupRequest (I : Type) where
  ID : I

structure FreeGroupResponse where
  OK : Bool
deriving DecidableEq, Repr

structure DescribeGroupRequest (I : Type) where
  ID : I

structure DescribeGroupResponse (D : Type) where
  Description : D

structure DestroyGroupRequest (I : Type) where
  ID : I

structure DestroyGroupResponse where
  OK : Bool
deriving DecidableEq, Repr

structure InspectGroupsRequest (I : Type) where
  ID : I

structure InspectGroupsResponse (S : Type) where
  Groups : List S

/-- The exported type `Group` (service.go lines 13-15). -/
structure Group (S I D π : Type) where
  plugin : Plugin S I D π

/-- `PluginServer` (service.go lines 8-10). -/
def PluginServer {S I D π : Type} (p : Plugin S I D π) : Group S I D π :=
  { plugin := p }

/-- `(*Group).CommitGroup` (lines 18-25): the response after the call, the
error returned, and the plugin state. -/
def Group.CommitGroup {S I D π : Type} (p : Group S I D π) (req : CommitGroupRequest S)
    (resp : CommitGroupResponse) (st : π) : (CommitGroupResponse × Err) × π :=
  match p.plugin.CommitGroup req.Spec req.Pretend st with
  | ((_, some e), st1) => ((resp, some e), st1)
  | ((details, none), st1) => (({ resp with Details := details }, none), st1)

/-- `(*Group).FreeGroup` (lines 28-35). -/
def Group.FreeGroup {S I D π : Type} (p : Group S I D π) (req : FreeGroupRequest I)
    (resp : FreeGroupResponse) (st : π) : (FreeGroupResponse × Err) × π :=
  match p.plugin.FreeGroup req.ID st with
  | (some e, st1) => ((resp, some e), st1)
  | (none, st1) => (({ resp with OK := true }, none), st1)

/-- `(*Group).DescribeGroup` (lines 38-45). -/
def Group.DescribeGroup {S I D π : Type} (p : Group S I D π) (req : DescribeGroupRequest I)
    (resp : DescribeGroupResponse D) (st : π) : (DescribeGroupResponse D × Err) × π :=
  match p.plugin.DescribeGroup req.ID st with
  | ((_, some e), st1) => ((resp, some e), st1)
  | ((desc, none), st1) => (({ resp with Description := desc }, none), st1)

/-- `(*Group).DestroyGroup` (lines 48-55). -/
def Group.DestroyGroup {S I D π : Type} (p : Group S I D π) (req : DestroyGroupRequest I)
    (resp : DestroyGroupResponse) (st : π) : (DestroyGroupResponse × Err) × π :=
  match p.plugin.DestroyGroup req.ID st with
  | (some e, st1) => ((resp, some e), st1)
  | (none, st1) => (({ resp with OK := true }, none), st1)

/-- `(*Group).InspectGroups` (lines 58-65): the request is not read. -/
def Group.InspectGroups {S I D π : Type} (p : Group S I D π) (_req : InspectGroupsRequest I)
    (resp : InspectGroupsResponse S) (st : π) : (InspectGroupsResponse S × Err) × π :=
  match p.plugin.InspectGroups st with
  | ((_, some e), st1) => ((resp, some e), st1)
  | ((groups, none), st1) => (({ resp with Groups := groups }, none), st1)

end GroupRPC

/-! ## Concrete inputs -/

/-- An environment in which start-up succeeds. -/
def envOk : Env :=
  { register := none, listen := none,
    acceptOnClose := ⟨"use of closed network connection"⟩ }

/-- A caller task that records `n` and returns `nil`. -/
def okTask (n : Nat) : List Nat → List Nat × Err :=
  fun s => (s ++ [n], none)

/-- A caller task that records `n` and returns an error. -/
def badTask (n : Nat) (msg : String) : List Nat → List Nat × Err :=
  fun s => (s ++ [n], some ⟨msg⟩)

/-- A plugin over a counter: commits echo the spec, `FreeGroup` fails on id 0,
`DescribeGroup` fails on odd ids, `DestroyGroup` fails on id 0. -/
def samplePlugin : GroupRPC.Plugin String Nat String Nat :=
  { CommitGroup := fun spec pretend n =>
      if pretend then (("would commit " ++ spec, none), n) else (("committed " ++ spec, none), n + 1)
    FreeGroup := fun id n => if id = 0 then (some ⟨"no such group"⟩, n) else (none, n + 1)
    DescribeGroup := fun id n =>
      if id % 2 = 1 then (("", some ⟨"unknown"⟩), n) else (("group", none), n)
    DestroyGroup := fun id n => if id = 0 then (some ⟨"no such group"⟩, n) else (none, n - 1)
    InspectGroups := fun n => ((List.replicate n "g", none), n) }

/-! ## The task loop -/

theorem closeListenerTask_fresh {σ : Type} (a : GoError) (w : World σ)
    (herr : w.engine.err = none) (hst : w.engine.stopClosed = false)
    (hacc : w.engine.accept = .accepting ∨ w.engine.accept = .sending none) :
    ∃ w1 : World σ, closeListenerTask a w = .ok (w1, none) ∧ w1.user = w.user ∧
      w1.trace = w.trace ++ [.closeEngineStop, .recvEngineStopped none] ∧
      w1.engine.err = none ∧ w1.engine.stopClosed = true ∧ w1.engine.accept = .exited ∧
      (w.engine.accept = .accepting →
        w1.engine.userInitiated = true ∧ w1.engine.listenerClosed = true) := by
  rcases hacc with h | h
  · simp [closeListenerTask, Engine.closeStop, hst, Engine.closer, Engine.awaitStopped, h,
      Engine.acceptFailed, exitSwitch, herr]
  · simp [closeListenerTask, Engine.closeStop, hst, Engine.awaitStopped, h, herr]

theorem runTasks_shutdownTasks {σ : Type} (env : Env) (fs : List (σ → σ × Err)) :
    ∀ (i : Nat) (w : World σ), w.engine.err = none → w.engine.stopClosed = false →
      (w.engine.accept = .accepting ∨ w.engine.accept = .sending none) →
      ∃ w1 : World σ,
        runTasks (shutdownTasks env fs) i w = .ok (w1, (pass fs i w.user).2.2) ∧
        w1.user = (pass fs i w.user).1 ∧
        w1.trace = w.trace ++ (pass fs i w.user).2.1 ∧
        w1.engine.err = none ∧
        ((pass fs i w.user).2.2 = none →
          w1.engine.stopClosed = true ∧ w1.engine.accept = .exited) ∧
        (w.engine.accept = .accepting → w1.engine.stopClosed = true →
          w1.engine.userInitiated = true ∧ w1.engine.listenerClosed = true) := by
  induction fs with
  | nil =>
    intro i w herr hst hacc
    obtain ⟨w1, h1, h2, h3, h4, h5, h6, h7⟩ :=
      closeListenerTask_fresh env.acceptOnClose
        ({ w with trace := w.trace ++ [.invoke i] } : World σ) herr hst hacc
    refine ⟨w1, ?_, ?_, ?_, h4, fun _ => ⟨h5, h6⟩, fun ha _ => h7 ha⟩
    · simp [shutdownTasks, runTasks, h1, pass]
    · simpa [pass] using h2
    · simpa [pass] using h3
  | cons f fs ih =>
    intro i w herr hst hacc
    cases hf : (f w.user).2 with
    | some e =>
      refine ⟨{ w with user := (f w.user).1, trace := w.trace ++ [.invoke i] }, ?_, ?_, ?_, herr,
        ?_, ?_⟩
      · simp [shutdownTasks, runTasks, callerTask, pass, hf]
      · simp [pass, hf]
      · simp [pass, hf]
      · simp [pass, hf]
      · intro _ hc
        simp [hst] at hc
    | none =>
      obtain ⟨w1, h1, h2, h3, h4, h5, h6⟩ :=
        ih (i + 1) ({ w with user := (f w.user).1, trace := w.trace ++ [.invoke i] } : World σ)
          herr hst hacc
      refine ⟨w1, ?_, ?_, ?_, h4, ?_, h6⟩
      · have : runTasks (shutdownTasks env (f :: fs)) i w =
            runTasks (shutdownTasks env fs) (i + 1)
              ({ w with user := (f w.user).1, trace := w.trace ++ [.invoke i] } : World σ) := by
          simp [shutdownTasks, runTasks, callerTask, hf]
        rw [this, h1]
        simp [pass, hf]
      · simpa [pass, hf] using h2
      · simpa [pass, hf] using h3
      · simpa [pass, hf] using h5

/-! ## Facts about one pass -/

theorem pass_allSucceed {σ : Type} (fs : List (σ → σ × Err)) :
    ∀ (i : Nat) (s : σ), allSucceed fs s = true →
      pass fs i s = (runAll fs s,
        (List.range' i (fs.length + 1)).map Event.invoke ++
          [.closeEngineStop, .recvEngineStopped none], none) := by
  induction fs with
  | nil => intro i s _; simp [pass, runAll, List.range']
  | cons f fs ih =>
    intro i s h
    simp only [allSucceed, Bool.and_eq_true, Option.isNone_iff_eq_none] at h
    have h2 := ih (i + 1) (f s).1 h.2
    simp [pass, h.1, h2, runAll, List.range']

theorem pass_firstFailure {σ : Type} (pre : List (σ → σ × Err)) (f : σ → σ × Err)
    (post : List (σ → σ × Err)) (e : GoError) :
    ∀ (i : Nat) (s : σ), allSucceed pre s = true → (f (runAll pre s)).2 = some e →
      pass (pre ++ f :: post) i s =
        ((f (runAll pre s)).1, (List.range' i (pre.length + 1)).map Event.invoke, some e) := by
  induction pre with
  | nil => intro i s _ hf; simp [runAll] at hf; simp [pass, hf, runAll, List.range']
  | cons g pre ih =>
    intro i s h hf
    simp only [allSucceed, Bool.and_eq_true, Option.isNone_iff_eq_none] at h
    have hf2 : (f (runAll pre (g s).1)).2 = some e := by simpa [runAll] using hf
    have h2 := ih (i + 1) (g s).1 h.2 hf2
    simp [pass, h.1, h2, runAll, List.range']

theorem pass_count_close {σ : Type} (fs : List (σ → σ × Err)) :
    ∀ (i : Nat) (s : σ),
      (pass fs i s).2.1.count Event.closeEngineStop = if allSucceed fs s = true then 1 else 0 := by
  induction fs with
  | nil => intro i s; simp [pass, allSucceed, List.count_cons]
  | cons f fs ih =>
    intro i s
    cases hf : (f s).2 with
    | some e => simp [pass, allSucceed, hf, List.count_cons]
    | none => simp [pass, allSucceed, hf, ih (i + 1) (f s).1, List.count_cons]

theorem pass_invoked {σ : Type} (fs : List (σ → σ × Err)) :
    ∀ (i : Nat) (s : σ), ∃ m, 1 ≤ m ∧ m ≤ fs.length + 1 ∧
      invoked (pass fs i s).2.1 = List.range' i m := by
  induction fs with
  | nil => intro i s; exact ⟨1, le_refl _, by simp, by simp [pass, invoked, List.range']⟩
  | cons f fs ih =>
    intro i s
    cases hf : (f s).2 with
    | some e => exact ⟨1, le_refl _, by simp, by simp [pass, hf, invoked, List.range']⟩
    | none =>
      obtain ⟨m, h1, h2, h3⟩ := ih (i + 1) (f s).1
      refine ⟨m + 1, by omega, by simp; omega, ?_⟩
      simp [pass, hf, invoked, h3, List.range']

theorem pass_close_after_callers {σ : Type} (fs : List (σ → σ × Err)) :
    ∀ (i : Nat) (s : σ) (before after : List Event),
      (pass fs i s).2.1 = before ++ Event.closeEngineStop :: after →
      (∀ j, i ≤ j → j < i + fs.length → Event.invoke j ∈ before) ∧
      (∀ j, Event.invoke j ∉ after) := by
  induction fs with
  | nil =>
    intro i s before after h
    simp only [pass] at h
    rcases before with _ | ⟨x, _ | ⟨y, rest⟩⟩
    · simp at h
    · simp at h
      obtain ⟨_, h2⟩ := h
      subst h2
      refine ⟨fun j h1 h2 => ?_, fun j => by simp⟩
      simp at h2
      omega
    · simp at h
      obtain ⟨_, _, h3⟩ := h
      rcases rest with _ | ⟨z, rest⟩ <;> simp at h3
  | cons f fs ih =>
    intro i s before after h
    cases hf : (f s).2 with
    | some e =>
      simp only [pass, hf] at h
      rcases before with _ | ⟨x, rest⟩ <;> simp at h
    | none =>
      simp only [pass, hf] at h
      rcases before with _ | ⟨x, rest⟩
      · simp at h
      · simp only [List.cons_append, List.cons.injEq] at h
        obtain ⟨hx, hrest⟩ := h
        obtain ⟨ha, hb⟩ := ih (i + 1) (f s).1 rest after hrest
        refine ⟨?_, hb⟩
        intro j hj1 hj2
        by_cases hji : j = i
        · subst hji; simp [← hx]
        · exact List.mem_cons_of_mem _ (ha j (by omega) (by simp at hj2; omega))

/-! ## The transition system keeps the invariant -/

theorem advance_closeStop (k : Nat) : advance k .closeStop = if k = 0 then 1 else k := by
  rcases k with _ | _ | _ | k <;> simp [advance]

theorem advance_signal (k : Nat) (sg : Signal) :
    advance k (.signal sg) = if k = 0 then 1 else k := by
  rcases k with _ | _ | _ | k <;> simp [advance]

theorem advance_accept (k : Nat) (r : AcceptResult) : advance k (.accept r) = k := by
  rcases k with _ | _ | _ | k <;> simp [advance]

theorem advance_closer (k : Nat) : advance k .closer = k := by
  rcases k with _ | _ | _ | k <;> simp [advance]

theorem advance_schedule (k : Nat) (b : Bool) :
    advance k (.schedule b) = if k = 1 then 2 else k := by
  rcases k with _ | _ | _ | k <;> simp [advance]

theorem advance_recvOutcome (k : Nat) : advance k .recvOutcome = if k = 2 then 3 else k := by
  rcases k with _ | _ | _ | k <;> simp [advance]

theorem runCoordinator_pending {σ : Type} (env : Env) (shutdown : List (σ → σ × Err)) (s0 : σ)
    (s : Server σ) (b : Bool) (hinv : Inv env shutdown s0 s)
    (hsel : s.coordinator = .selecting)
    (hpend : (s.fromUserClosed || !s.fromKernel.isEmpty) = true) :
    ∃ s1, s.runCoordinator b = .ok s1 ∧ Inv env shutdown s0 s1 ∧ 2 ≤ s1.stage ∧
      s1.fromUserClosed = s.fromUserClosed ∧ (Quiet s → Quiet s1) := by
  obtain ⟨tasks, world, fk, fu, coord, recvd⟩ := s
  simp only at hsel hpend
  subst hsel
  simp only [Inv] at hinv
  obtain ⟨ht, herr, hu, htr, hst, hacc, hrec⟩ := hinv
  obtain ⟨w1, h1, h2, h3, h4, h5, h6⟩ :=
    runTasks_shutdownTasks env shutdown 0 world herr hst hacc
  subst ht
  rw [hu] at h1 h2 h3 h5
  rw [htr] at h3
  have hcond : (!fk.isEmpty || fu) = true := by
    cases fu <;> simp_all
  cases hr : (pass shutdown 0 s0).2.2 with
  | none =>
    rw [hr] at h1
    have hran : Ran shutdown s0 w1 := ⟨h2, by simpa using h3, h5⟩
    by_cases hc : (!fk.isEmpty && (b || !fu)) = true
    · refine ⟨{ tasks := shutdownTasks env shutdown, world := w1, fromKernel := fk.tail,
                fromUserClosed := fu, coordinator := .finished, received := recvd },
        ?_, ?_, ?_, rfl, fun hq => h6 hq⟩
      · simp only [Server.runCoordinator, hcond, hc]; simp [h1]
      · exact ⟨rfl, h4, hran, Or.inl ⟨hrec, hr⟩⟩
      · simp [Server.stage, hrec]
    · refine ⟨{ tasks := shutdownTasks env shutdown, world := w1, fromKernel := fk,
                fromUserClosed := fu, coordinator := .finished, received := recvd },
        ?_, ?_, ?_, rfl, fun hq => h6 hq⟩
      · simp only [Server.runCoordinator, hcond, hc]; simp [h1]
      · exact ⟨rfl, h4, hran, Or.inl ⟨hrec, hr⟩⟩
      · simp [Server.stage, hrec]
  | some e =>
    rw [hr] at h1
    have hran : Ran shutdown s0 w1 := ⟨h2, by simpa using h3, h5⟩
    by_cases hc : (!fk.isEmpty && (b || !fu)) = true
    · refine ⟨{ tasks := shutdownTasks env shutdown, world := w1, fromKernel := fk.tail,
                fromUserClosed := fu, coordinator := .sending e, received := recvd },
        ?_, ?_, ?_, rfl, fun hq => h6 hq⟩
      · simp only [Server.runCoordinator, hcond, hc]; simp [h1]
      · exact ⟨rfl, h4, hran, hr, hrec⟩
      · simp [Server.stage]
    · refine ⟨{ tasks := shutdownTasks env shutdown, world := w1, fromKernel := fk,
                fromUserClosed := fu, coordinator := .sending e, received := recvd },
        ?_, ?_, ?_, rfl, fun hq => h6 hq⟩
      · simp only [Server.runCoordinator, hcond, hc]; simp [h1]
      · exact ⟨rfl, h4, hran, hr, hrec⟩
      · simp [Server.stage]

theorem onAccept_ok (eng : Engine) (r : AcceptResult) (herr : eng.err = none) :
    ∃ eng1, eng.onAccept r = .ok eng1 ∧ eng1.err = none ∧
      eng1.stopClosed = eng.stopClosed ∧ eng1.userInitiated = eng.userInitiated ∧
      eng1.listenerClosed = eng.listenerClosed ∧
      (eng.accept = .exited → eng1.accept = .exited) ∧
      ((eng.accept = .accepting ∨ eng.accept = .sending none) →
        (eng1.accept = .accepting ∨ eng1.accept = .sending none)) ∧
      (eng.accept = .accepting → (∀ e, r ≠ .fail e) → eng1.accept = .accepting) := by
  obtain ⟨err, sc, ui, lc, acc, srv⟩ := eng
  simp only at herr
  subst herr
  cases acc <;> cases r <;> cases ui <;>
    simp [Engine.onAccept, Engine.acceptFailed, exitSwitch]

theorem runCloser_ok (eng : Engine) :
    eng.runCloser.err = eng.err ∧ eng.runCloser.stopClosed = eng.stopClosed ∧
      eng.runCloser.accept = eng.accept ∧
      (eng.stopClosed = false → eng.runCloser = eng) ∧
      (eng.stopClosed = true → eng.runCloser.userInitiated = true) ∧
      (eng.stopClosed = true → (eng.userInitiated = true → eng.listenerClosed = true) →
        eng.runCloser.listenerClosed = true) := by
  obtain ⟨err, sc, ui, lc, acc, srv⟩ := eng
  cases sc <;> cases ui <;> simp [Engine.runCloser, Engine.closer]

theorem stage_le_three {σ : Type} (s : Server σ) : s.stage ≤ 3 := by
  obtain ⟨tasks, world, fk, fu, coord, recvd⟩ := s
  cases coord <;> simp only [Server.stage] <;> (try split_ifs) <;> omega

theorem stage_selecting {σ : Type} (s : Server σ) (h : s.coordinator = .selecting) :
    s.stage ≤ 1 := by
  obtain ⟨tasks, world, fk, fu, coord, recvd⟩ := s
  simp only at h
  subst h
  simp only [Server.stage]
  split_ifs <;> omega

theorem stage_not_selecting {σ : Type} (s : Server σ) (h : s.coordinator ≠ .selecting) :
    2 ≤ s.stage := by
  obtain ⟨tasks, world, fk, fu, coord, recvd⟩ := s
  cases coord with
  | selecting => exact absurd rfl h
  | sending e => simp [Server.stage]
  | finished => simp only [Server.stage]; split_ifs <;> omega

theorem stage_closeStop {σ : Type} (s : Server σ) :
    s.stage ≤ ({ s with fromUserClosed := true } : Server σ).stage ∧
      1 ≤ ({ s with fromUserClosed := true } : Server σ).stage := by
  obtain ⟨tasks, world, fk, fu, coord, recvd⟩ := s
  cases coord <;> simp [Server.stage] <;> split_ifs <;> omega

theorem stage_signal {σ : Type} (s : Server σ) (sg : Signal) :
    s.stage ≤ ({ s with fromKernel := s.fromKernel ++ [sg] } : Server σ).stage ∧
      1 ≤ ({ s with fromKernel := s.fromKernel ++ [sg] } : Server σ).stage := by
  obtain ⟨tasks, world, fk, fu, coord, recvd⟩ := s
  cases coord <;> simp [Server.stage] <;> split_ifs <;> omega

theorem stage_kernel_pending {σ : Type} (s : Server σ) (h : ¬ s.fromKernel.length < 1) :
    1 ≤ s.stage := by
  obtain ⟨tasks, world, fk, fu, coord, recvd⟩ := s
  have hne : fk ≠ [] := by
    intro h0
    simp [h0] at h
  cases coord <;> simp [Server.stage, hne]
  split_ifs <;> omega

theorem stage_received {σ : Type} (s : Server σ) (v : Err) :
    ({ s with coordinator := .finished, received := s.received ++ [v] } : Server σ).stage = 3 := by
  simp [Server.stage]

theorem step_inv {σ : Type} (env : Env) (shutdown : List (σ → σ × Err)) (s0 : σ)
    (s : Server σ) (a : Action) (k : Nat)
    (hinv : Inv env shutdown s0 s) (hk : k ≤ s.stage) :
    (a = .closeStop ∧ s.fromUserClosed = true ∧ step s a = .error .closeOfClosedChannel) ∨
    (∃ s1, step s a = .ok s1 ∧ Inv env shutdown s0 s1 ∧ advance k a ≤ s1.stage ∧
      s1.fromUserClosed = (s.fromUserClosed || decide (a = .closeStop)) ∧
      (a = .closeStop → s.fromUserClosed = false) ∧
      (Quiet s → (∀ e, a ≠ .accept (.fail e)) → Quiet s1)) := by
  cases a with
  | closeStop =>
    by_cases hfu : s.fromUserClosed = true
    · exact Or.inl ⟨rfl, hfu, by simp [step, hfu]⟩
    · refine Or.inr ⟨{ s with fromUserClosed := true }, by simp [step, hfu], hinv, ?_,
        by simp, fun _ => by simpa using hfu, fun hq _ => hq⟩
      rw [advance_closeStop]
      have := stage_closeStop s
      split <;> omega
  | signal sg =>
    rw [advance_signal]
    by_cases hlen : s.fromKernel.length < 1
    · refine Or.inr ⟨{ s with fromKernel := s.fromKernel ++ [sg] }, by simp [step, hlen], hinv,
        ?_, by simp, fun h => by simp at h, fun hq _ => hq⟩
      have := stage_signal s sg
      split <;> omega
    · refine Or.inr ⟨s, by simp [step, hlen], hinv, ?_, by simp, fun h => by simp at h,
        fun hq _ => hq⟩
      have := stage_kernel_pending s hlen
      split <;> omega
  | accept r =>
    obtain ⟨eng1, h1, h2, h3, h4, h5, h6, h7, h8⟩ := onAccept_ok s.world.engine r hinv.2.1
    refine Or.inr ⟨{ s with world := { s.world with engine := eng1 } }, by simp [step, h1], ?_,
      ?_, by simp, fun h => by simp at h, ?_⟩
    · obtain ⟨tasks, world, fk, fu, coord, recvd⟩ := s
      obtain ⟨ht, _, hrest⟩ := hinv
      refine ⟨ht, h2, ?_⟩
      cases coord with
      | selecting =>
        obtain ⟨hu, htr, hst, hacc, hrec⟩ := hrest
        exact ⟨hu, htr, by simpa [h3] using hst, h7 hacc, hrec⟩
      | sending e =>
        obtain ⟨⟨hu, htr, hfl⟩, hp, hrec⟩ := hrest
        refine ⟨⟨hu, htr, fun hn => ?_⟩, hp, hrec⟩
        obtain ⟨f3, f4⟩ := hfl hn
        exact ⟨by simpa [h3] using f3, h6 f4⟩
      | finished =>
        obtain ⟨⟨hu, htr, hfl⟩, hrec⟩ := hrest
        refine ⟨⟨hu, htr, fun hn => ?_⟩, hrec⟩
        obtain ⟨f3, f4⟩ := hfl hn
        exact ⟨by simpa [h3] using f3, h6 f4⟩
    · rw [advance_accept]
      exact hk
    · intro hq hnf
      have hnf2 : ∀ e, r ≠ .fail e := fun e he => hnf e (by rw [he])
      obtain ⟨tasks, world, fk, fu, coord, recvd⟩ := s
      cases coord with
      | selecting => exact h8 hq hnf2
      | sending e =>
        intro hc
        obtain ⟨g1, g2⟩ := hq (by simpa [h3] using hc)
        exact ⟨by simpa [h4] using g1, by simpa [h5] using g2⟩
      | finished =>
        intro hc
        obtain ⟨g1, g2⟩ := hq (by simpa [h3] using hc)
        exact ⟨by simpa [h4] using g1, by simpa [h5] using g2⟩
  | closer =>
    obtain ⟨c1, c2, c3, c4, c5, c6⟩ := runCloser_ok s.world.engine
    refine Or.inr ⟨{ s with world := { s.world with engine := s.world.engine.runCloser } },
      by simp [step], ?_, ?_, by simp, fun h => by simp at h, ?_⟩
    · obtain ⟨tasks, world, fk, fu, coord, recvd⟩ := s
      obtain ⟨ht, herr, hrest⟩ := hinv
      refine ⟨ht, by simpa [c1] using herr, ?_⟩
      cases coord with
      | selecting =>
        obtain ⟨hu, htr, hst, hacc, hrec⟩ := hrest
        refine ⟨hu, htr, by simpa [c2] using hst, ?_, hrec⟩
        simpa [c3] using hacc
      | sending e =>
        obtain ⟨⟨hu, htr, hfl⟩, hp, hrec⟩ := hrest
        refine ⟨⟨hu, htr, fun hn => ?_⟩, hp, hrec⟩
        obtain ⟨f3, f4⟩ := hfl hn
        exact ⟨by simpa [c2] using f3, by simpa [c3] using f4⟩
      | finished =>
        obtain ⟨⟨hu, htr, hfl⟩, hrec⟩ := hrest
        refine ⟨⟨hu, htr, fun hn => ?_⟩, hrec⟩
        obtain ⟨f3, f4⟩ := hfl hn
        exact ⟨by simpa [c2] using f3, by simpa [c3] using f4⟩
    · rw [advance_closer]
      exact hk
    · intro hq _
      obtain ⟨tasks, world, fk, fu, coord, recvd⟩ := s
      cases coord with
      | selecting =>
        have hq2 : world.engine.accept = .accepting := hq
        show world.engine.runCloser.accept = .accepting
        rw [c3]
        exact hq2
      | sending e =>
        intro hc
        have hc2 : world.engine.stopClosed = true := by simpa [c2] using hc
        exact ⟨c5 hc2, c6 hc2 (fun _ => (hq hc2).2)⟩
      | finished =>
        intro hc
        have hc2 : world.engine.stopClosed = true := by simpa [c2] using hc
        exact ⟨c5 hc2, c6 hc2 (fun _ => (hq hc2).2)⟩
  | schedule b =>
    rw [advance_schedule]
    cases hc : s.coordinator with
    | selecting =>
      by_cases hpend : (s.fromUserClosed || !s.fromKernel.isEmpty) = true
      · obtain ⟨s1, h1, h2, h3, h4, h5⟩ :=
          runCoordinator_pending env shutdown s0 s b hinv hc hpend
        refine Or.inr ⟨s1, by simpa [step] using h1, h2, ?_, by simp [h4], fun h => by simp at h,
          fun hq _ => h5 hq⟩
        have := stage_selecting s hc
        split <;> omega
      · refine Or.inr ⟨s, ?_, hinv, ?_, by simp, fun h => by simp at h, fun hq _ => hq⟩
        · have hcond : (!s.fromKernel.isEmpty || s.fromUserClosed) = false := by
            cases hu : s.fromUserClosed <;> simp_all
          simp only [step, Server.runCoordinator, hc, hcond]
          simp
        · have : s.stage = 0 := by simp [Server.stage, hc, hpend]
          split <;> omega
    | sending e =>
      refine Or.inr ⟨s, by simp [step, Server.runCoordinator, hc], hinv, ?_, by simp,
        fun h => by simp at h, fun hq _ => hq⟩
      have := stage_not_selecting s (by simp [hc])
      split <;> omega
    | finished =>
      refine Or.inr ⟨s, by simp [step, Server.runCoordinator, hc], hinv, ?_, by simp,
        fun h => by simp at h, fun hq _ => hq⟩
      have := stage_not_selecting s (by simp [hc])
      split <;> omega
  | recvOutcome =>
    rw [advance_recvOutcome]
    cases hc : s.coordinator with
    | selecting =>
      refine Or.inr ⟨s, by simp [step, hc], hinv, ?_, by simp, fun h => by simp at h,
        fun hq _ => hq⟩
      have := stage_selecting s hc
      split <;> omega
    | sending e =>
      refine Or.inr ⟨{ s with coordinator := .finished, received := s.received ++ [some e] },
        by simp [step, hc], ?_, ?_, by simp, fun h => by simp at h, ?_⟩
      · obtain ⟨tasks, world, fk, fu, coord, recvd⟩ := s
        simp only at hc
        subst hc
        obtain ⟨ht, herr, hran, hp, hrec⟩ := hinv
        refine ⟨ht, herr, hran, Or.inr ?_⟩
        simp only at hrec
        simp [hrec, hp]
      · rw [stage_received]
        have := stage_le_three s
        split <;> omega
      · intro hq _
        obtain ⟨tasks, world, fk, fu, coord, recvd⟩ := s
        simp only at hc
        subst hc
        exact hq
    | finished =>
      refine Or.inr ⟨{ s with coordinator := .finished, received := s.received ++ [none] },
        by simp [step, hc], ?_, ?_, by simp, fun h => by simp at h, ?_⟩
      · obtain ⟨tasks, world, fk, fu, coord, recvd⟩ := s
        simp only at hc
        subst hc
        obtain ⟨ht, herr, hran, hrec⟩ := hinv
        refine ⟨ht, herr, hran, Or.inr ?_⟩
        simp only at hrec
        rcases hrec with ⟨h1, h2⟩ | h1
        · simp [h1, h2]
        · cases recvd with
          | nil => simp at h1
          | cons x xs => simpa using h1
      · rw [stage_received]
        have := stage_le_three s
        split <;> omega
      · intro hq _
        obtain ⟨tasks, world, fk, fu, coord, recvd⟩ := s
        simp only at hc
        subst hc
        exact hq

theorem exec_inv {σ : Type} (env : Env) (shutdown : List (σ → σ × Err)) (s0 : σ) :
    ∀ (acts : List Action) (s : Server σ) (k : Nat), Inv env shutdown s0 s → k ≤ s.stage →
      acts.count .closeStop + (if s.fromUserClosed = true then 1 else 0) ≤ 1 →
      ∃ s1, exec s acts = .ok s1 ∧ Inv env shutdown s0 s1 ∧ progress k acts ≤ s1.stage ∧
        (Quiet s → (∀ e, Action.accept (.fail e) ∉ acts) → Quiet s1) := by
  intro acts
  induction acts with
  | nil => intro s k hinv hk _; exact ⟨s, rfl, hinv, hk, fun hq _ => hq⟩
  | cons a rest ih =>
    intro s k hinv hk hb
    rcases step_inv env shutdown s0 s a k hinv hk with
      ⟨ha, hfu, _⟩ | ⟨s1, h1, h2, h3, h4, h5, h6⟩
    · subst ha
      simp [hfu] at hb
    · have hb1 : rest.count .closeStop + (if s1.fromUserClosed = true then 1 else 0) ≤ 1 := by
        by_cases hac : a = .closeStop
        · subst hac
          simp [h5 rfl] at hb
          simp [h4, hb]
        · have h6 : s1.fromUserClosed = s.fromUserClosed := by simp [h4, hac]
          rw [h6]
          rw [List.count_cons_of_ne (Ne.symm hac)] at hb
          exact hb
      obtain ⟨s2, g1, g2, g3, g4⟩ := ih s1 (advance k a) h2 h3 hb1
      refine ⟨s2, by simp [exec, h1, g1], g2, by simpa [progress] using g3, fun hq hnf => ?_⟩
      refine g4 (h6 hq (fun e he => hnf e (by simp [he]))) (fun e he => hnf e ?_)
      exact List.mem_cons_of_mem _ he

theorem exec_double_close {σ : Type} (env : Env) (shutdown : List (σ → σ × Err)) (s0 : σ) :
    ∀ (acts : List Action) (s : Server σ), Inv env shutdown s0 s →
      2 ≤ acts.count .closeStop + (if s.fromUserClosed = true then 1 else 0) →
      exec s acts = .error .closeOfClosedChannel := by
  intro acts
  induction acts with
  | nil =>
    intro s _ hb
    simp at hb
    split at hb <;> omega
  | cons a rest ih =>
    intro s hinv hb
    rcases step_inv env shutdown s0 s a 0 hinv (Nat.zero_le _) with
      ⟨_, _, h⟩ | ⟨s1, h1, h2, _, h4, h5, _⟩
    · simp [exec, h]
    · have hb1 : 2 ≤ rest.count .closeStop + (if s1.fromUserClosed = true then 1 else 0) := by
        by_cases hac : a = .closeStop
        · subst hac
          simp [h5 rfl] at hb
          simpa [h4] using hb
        · have h6 : s1.fromUserClosed = s.fromUserClosed := by simp [h4, hac]
          rw [h6]
          rw [List.count_cons_of_ne (Ne.symm hac)] at hb
          exact hb
      simp [exec, h1, ih s1 h2 hb1]

theorem start_ok {σ : Type} (env : Env) (shutdown : List (σ → σ × Err)) (s0 : σ)
    (hreg : env.register = none) (hlis : env.listen = none) :
    ∃ srv : Server σ,
      StartPluginAtPath env shutdown s0 = ([.closer, .acceptLoop, .coordinator], .ok srv) ∧
      Inv env shutdown s0 srv ∧ srv.fromUserClosed = false ∧ srv.stage = 0 ∧ Quiet srv := by
  refine ⟨_, by simp only [StartPluginAtPath, runJSONRPCServer, hreg, hlis]; rfl, ?_, rfl, ?_, ?_⟩
  · simp [Inv]
  · simp [Server.stage]
  · simp [Quiet]

theorem launch_inv_quiet {σ : Type} (env : Env) (shutdown : List (σ → σ × Err)) (s0 : σ)
    (sched : List Action) (hreg : env.register = none) (hlis : env.listen = none)
    (hone : sched.count .closeStop ≤ 1) :
    ∃ s, launch env shutdown s0 sched = some (.ok s) ∧ Inv env shutdown s0 s ∧
      progress 0 sched ≤ s.stage ∧ ((∀ e, Action.accept (.fail e) ∉ sched) → Quiet s) := by
  obtain ⟨srv, h1, h2, h3, _, h5⟩ := start_ok env shutdown s0 hreg hlis
  obtain ⟨s, g1, g2, g3, g4⟩ := exec_inv env shutdown s0 sched srv 0 h2 (Nat.zero_le _)
    (by simpa [h3] using hone)
  exact ⟨s, by simp [launch, h1, g1], g2, g3, g4 h5⟩

theorem launch_inv {σ : Type} (env : Env) (shutdown : List (σ → σ × Err)) (s0 : σ)
    (sched : List Action) (hreg : env.register = none) (hlis : env.listen = none)
    (hone : sched.count .closeStop ≤ 1) :
    ∃ s, launch env shutdown s0 sched = some (.ok s) ∧ Inv env shutdown s0 s ∧
      progress 0 sched ≤ s.stage := by
  obtain ⟨s, h1, h2, h3, _⟩ := launch_inv_quiet env shutdown s0 sched hreg hlis hone
  exact ⟨s, h1, h2, h3⟩

theorem launch_double_close {σ : Type} (env : Env) (shutdown : List (σ → σ × Err)) (s0 : σ)
    (sched : List Action) (hreg : env.register = none) (hlis : env.listen = none)
    (htwo : 2 ≤ sched.count .closeStop) :
    launch env shutdown s0 sched = some (.error .closeOfClosedChannel) := by
  obtain ⟨srv, h1, h2, h3, _⟩ := start_ok env shutdown s0 hreg hlis
  have := exec_double_close env shutdown s0 sched srv h2 (by simpa [h3] using htwo)
  simp [launch, h1, this]

theorem inv_ran {σ : Type} (env : Env) (shutdown : List (σ → σ × Err)) (s0 : σ)
    (s : Server σ) (hinv : Inv env shutdown s0 s) (h2 : 2 ≤ s.stage) :
    s.coordinator ≠ .selecting ∧ Ran shutdown s0 s.world ∧
      s.tasks = shutdownTasks env shutdown := by
  obtain ⟨tasks, world, fk, fu, coord, recvd⟩ := s
  cases coord with
  | selecting =>
    have := stage_selecting (σ := σ) ⟨tasks, world, fk, fu, .selecting, recvd⟩ rfl
    omega
  | sending e => exact ⟨by simp, hinv.2.2.1, hinv.1⟩
  | finished => exact ⟨by simp, hinv.2.2.1, hinv.1⟩

theorem inv_observed {σ : Type} (env : Env) (shutdown : List (σ → σ × Err)) (s0 : σ)
    (s : Server σ) (hinv : Inv env shutdown s0 s) (h3 : 3 ≤ s.stage) :
    s.received.head? = some (pass shutdown 0 s0).2.2 := by
  obtain ⟨tasks, world, fk, fu, coord, recvd⟩ := s
  cases coord with
  | selecting =>
    have := stage_selecting (σ := σ) ⟨tasks, world, fk, fu, .selecting, recvd⟩ rfl
    omega
  | sending e => simp [Server.stage] at h3
  | finished =>
    obtain ⟨_, _, _, hrec⟩ := hinv
    rcases hrec with ⟨h1, _⟩ | h1
    · simp only at h1
      simp [Server.stage, h1] at h3
    · exact h1

/-! ## Shutdown order and outcome -/

/-- C1: when every caller-supplied task returns nil, in every run of a started
server in which the stop channel is closed at most once and the coordinator is
scheduled after a trigger, the slice handed to the coordinator is the caller's
functions in the order supplied followed by the listener-close closure, and the
events of the whole run are: positions `0 .. n` invoked once each in increasing
order, then the close of the engine stop channel and the receive of nil inside
the last task; the caller state is that of running each function once in order. -/
theorem shutdown_runs_callers_in_order_then_close {σ : Type} (env : Env)
    (shutdown : List (σ → σ × Err)) (s0 : σ) (sched : List Action)
    (hreg : env.register = none) (hlis : env.listen = none)
    (hok : allSucceed shutdown s0 = true)
    (hone : sched.count .closeStop ≤ 1) (hrun : fires sched = true) :
    ∃ s, launch env shutdown s0 sched = some (.ok s) ∧
      s.tasks = shutdown.map callerTask ++ [closeListenerTask env.acceptOnClose] ∧
      s.world.trace = (List.range (shutdown.length + 1)).map Event.invoke ++
        [.closeEngineStop, .recvEngineStopped none] ∧
      s.world.user = runAll shutdown s0 := by
  obtain ⟨s, h1, h2, h3⟩ := launch_inv env shutdown s0 sched hreg hlis hone
  have h4 : 2 ≤ s.stage := by
    simp only [fires, decide_eq_true_eq] at hrun
    omega
  obtain ⟨_, ⟨hu, htr, _⟩, ht⟩ := inv_ran env shutdown s0 s h2 h4
  rw [pass_allSucceed shutdown 0 s0 hok] at hu htr
  exact ⟨s, h1, ht, by simpa [List.range_eq_range'] using htr, hu⟩

/-- C1 at a concrete input: two succeeding tasks, external trigger. -/
theorem shutdown_runs_callers_in_order_then_close_witness :
    ∃ s, launch envOk [okTask 1, okTask 2] [] [.closeStop, .schedule true] = some (.ok s) ∧
      s.tasks = [okTask 1, okTask 2].map callerTask ++ [closeListenerTask envOk.acceptOnClose] ∧
      s.world.trace = (List.range ([okTask 1, okTask 2].length + 1)).map Event.invoke ++
        [.closeEngineStop, .recvEngineStopped none] ∧
      s.world.user = runAll [okTask 1, okTask 2] [] :=
  shutdown_runs_callers_in_order_then_close envOk [okTask 1, okTask 2] []
    [.closeStop, .schedule true] rfl rfl rfl (by decide) rfl

/-- C2: when the caller tasks before position `i = pre.length` return nil and
the task at position `i` returns the error `e`, in every run in which the stop
channel is closed at most once, the coordinator is scheduled after a trigger and
the caller then receives from the outcome channel: positions `0 .. i` are invoked
once each in order and nothing else happens (no later task, no listener close),
and the first value received on the outcome channel is `e`. -/
theorem first_failing_task_stops_the_sequence {σ : Type} (env : Env)
    (pre : List (σ → σ × Err)) (f : σ → σ × Err) (post : List (σ → σ × Err)) (e : GoError)
    (s0 : σ) (sched : List Action)
    (hreg : env.register = none) (hlis : env.listen = none)
    (hpre : allSucceed pre s0 = true) (hf : (f (runAll pre s0)).2 = some e)
    (hone : sched.count .closeStop ≤ 1) (hobs : observes sched = true) :
    ∃ s, launch env (pre ++ f :: post) s0 sched = some (.ok s) ∧
      s.world.trace = (List.range (pre.length + 1)).map Event.invoke ∧
      s.world.user = (f (runAll pre s0)).1 ∧
      s.received.head? = some (some e) := by
  obtain ⟨s, h1, h2, h3⟩ := launch_inv env (pre ++ f :: post) s0 sched hreg hlis hone
  have h4 : 3 ≤ s.stage := by
    simp only [observes, decide_eq_true_eq] at hobs
    omega
  obtain ⟨_, ⟨hu, htr, _⟩, _⟩ := inv_ran env (pre ++ f :: post) s0 s h2 (by omega)
  have hrec := inv_observed env (pre ++ f :: post) s0 s h2 h4
  rw [pass_firstFailure pre f post e 0 s0 hpre hf] at hu htr hrec
  exact ⟨s, h1, by simpa [List.range_eq_range'] using htr, hu, hrec⟩

/-- C2 at a concrete input: the second of three tasks fails. -/
theorem first_failing_task_stops_the_sequence_witness :
    ∃ s, launch envOk ([okTask 1] ++ badTask 2 "disk full" :: [okTask 3]) []
        [.signal .SIGTERM, .schedule false, .recvOutcome] = some (.ok s) ∧
      s.world.trace = (List.range ([okTask 1].length + 1)).map Event.invoke ∧
      s.world.user = (badTask 2 "disk full" (runAll [okTask 1] [])).1 ∧
      s.received.head? = some (some ⟨"disk full"⟩) :=
  first_failing_task_stops_the_sequence envOk [okTask 1] (badTask 2 "disk full") [okTask 3]
    ⟨"disk full"⟩ [] [.signal .SIGTERM, .schedule false, .recvOutcome] rfl rfl rfl rfl
    (by decide) rfl

/-- C4: when every caller-supplied task returns nil, in every run in which the
stop channel is closed at most once, the coordinator is scheduled after a trigger
and the caller then receives from the outcome channel, whatever error `Accept`
returns on the closed listener: the engine stop channel has been closed and the
accept goroutine has exited, the listener-close task received nil from the accept
goroutine (last event of the run) and so returned nil, and the first value the
caller receives on the outcome channel is nil.  When moreover `Accept` returned
no error of its own during the run, so that it failed only because the listener
was closed through the stop channel, the flag `userInitiated` is set and the
listener closed.  An accept goroutine that sees `userInitiated` set reports nil
for every error `Accept` returned. -/
theorem clean_shutdown_reports_nil {σ : Type} (env : Env)
    (shutdown : List (σ → σ × Err)) (s0 : σ) (sched : List Action)
    (hreg : env.register = none) (hlis : env.listen = none)
    (hok : allSucceed shutdown s0 = true)
    (hone : sched.count .closeStop ≤ 1) (hobs : observes sched = true) :
    ∃ s, launch env shutdown s0 sched = some (.ok s) ∧
      s.world.engine.stopClosed = true ∧ s.world.engine.accept = .exited ∧
      s.world.trace.getLast? = some (.recvEngineStopped none) ∧
      s.received.head? = some none ∧
      ((∀ e, Action.accept (.fail e) ∉ sched) →
        s.world.engine.userInitiated = true ∧ s.world.engine.listenerClosed = true) ∧
      ∀ (eng : Engine) (acceptErr : GoError), eng.userInitiated = true →
        eng.acceptFailed acceptErr = .reported none := by
  obtain ⟨s, h1, h2, h3, hq⟩ := launch_inv_quiet env shutdown s0 sched hreg hlis hone
  have h4 : 3 ≤ s.stage := by
    simp only [observes, decide_eq_true_eq] at hobs
    omega
  obtain ⟨hc, ⟨_, htr, hfl⟩, _⟩ := inv_ran env shutdown s0 s h2 (by omega)
  have hrec := inv_observed env shutdown s0 s h2 h4
  have hp := pass_allSucceed shutdown 0 s0 hok
  rw [hp] at htr hrec
  obtain ⟨f1, f2⟩ := hfl (by rw [hp])
  refine ⟨s, h1, f1, f2, ?_, hrec, fun hnf => ?_, ?_⟩
  · rw [htr]
    simp
  · have hquiet := hq hnf
    obtain ⟨tasks, world, fk, fu, coord, recvd⟩ := s
    cases coord with
    | selecting => exact absurd rfl hc
    | sending e => exact hquiet f1
    | finished => exact hquiet f1
  · intro eng acceptErr hu
    simp [Engine.acceptFailed, exitSwitch, hu]

/-- C4 at a concrete input: one succeeding task, external trigger, two accepted
connections and no error from `Accept` before the listener is closed. -/
theorem clean_shutdown_reports_nil_witness :
    ∃ s, launch envOk [okTask 1] []
        [.accept (.conn 1), .closeStop, .accept (.conn 2), .schedule true, .recvOutcome] =
          some (.ok s) ∧
      s.world.engine.stopClosed = true ∧ s.world.engine.accept = .exited ∧
      s.world.trace.getLast? = some (.recvEngineStopped none) ∧
      s.received.head? = some none ∧
      s.world.engine.userInitiated = true ∧ s.world.engine.listenerClosed = true := by
  obtain ⟨s, h1, h2, h3, h4, h5, h6, _⟩ :=
    clean_shutdown_reports_nil envOk [okTask 1] []
      [.accept (.conn 1), .closeStop, .accept (.conn 2), .schedule true, .recvOutcome]
      rfl rfl rfl (by decide) rfl
  exact ⟨s, h1, h2, h3, h4, h5, h6 (by simp)⟩

/-- The run the flag conclusion of C4 leaves out: `Accept` fails on its own
before the stop channel is closed, the accept goroutine is already blocked on
its send, and the caller has its nil outcome while the goroutine of lines 85-89
has not run yet; once scheduled it sets the flag and closes the listener. -/
theorem outcome_before_closer_runs :
    (∃ s, launch envOk [okTask 1] []
        [.accept (.fail ⟨"too many open files"⟩), .closeStop, .schedule true, .recvOutcome] =
          some (.ok s) ∧
      s.received = [none] ∧ s.world.engine.stopClosed = true ∧
      s.world.engine.userInitiated = false ∧ s.world.engine.listenerClosed = false) ∧
    (∃ s, launch envOk [okTask 1] []
        [.accept (.fail ⟨"too many open files"⟩), .closeStop, .schedule true, .recvOutcome,
          .closer] = some (.ok s) ∧
      s.received = [none] ∧
      s.world.engine.userInitiated = true ∧ s.world.engine.listenerClosed = true) :=
  ⟨⟨_, rfl, rfl, rfl, rfl, rfl⟩, ⟨_, rfl, rfl, rfl, rfl⟩⟩

/-! ## The accept loop and an unexpected listener failure -/

theorem exec_cons_ok {σ : Type} (s s1 : Server σ) (a : Action) (rest : List Action)
    (h : step s a = .ok s1) : exec s (a :: rest) = exec s1 rest := by
  simp [exec, h]

theorem exec_conns {σ : Type} (cs : List Nat) :
    ∀ (s : Server σ) (rest : List Action), s.world.engine.accept = .accepting →
      exec s (cs.map (fun c => Action.accept (.conn c)) ++ rest) =
        exec { s with world := { s.world with
                engine := { s.world.engine with served := s.world.engine.served ++ cs } } }
          rest := by
  induction cs with
  | nil => intro s rest _; simp
  | cons c cs ih =>
    intro s rest h
    have hstep : step s (.accept (.conn c)) =
        .ok { s with world := { s.world with
                engine := { s.world.engine with served := s.world.engine.served ++ [c] } } } := by
      simp [step, Engine.onAccept, h]
    have hrest := ih { s with world := { s.world with
        engine := { s.world.engine with served := s.world.engine.served ++ [c] } } } rest h
    rw [List.map_cons, List.cons_append, exec_cons_ok _ _ _ _ hstep, hrest]
    simp

/-- The exit switch, had it read the error `Accept` returned: an error with the
flag unset is a panic.  This is what the goroutine of `runHTTP` does with the
error of `Serve`. -/
theorem runHTTPExit_unexpected (e : GoError) : runHTTPExit false (some e) = .panicked e := by
  simp [runHTTPExit, exitSwitch]

/-- C3 (what the code does at the failing input): with start-up succeeding and
no stop requested, after any number of accepted connections an error returned by
`Accept` leaves the accept goroutine sending nil on its stopped channel: no
panic, no non-nil error, the flag `userInitiated` still unset. -/
theorem unexpected_accept_failure_reports_nil {σ : Type} (a : GoError)
    (shutdown : List (σ → σ × Err)) (s0 : σ) (cs : List Nat) (e : GoError) :
    ∃ s, launch { register := none, listen := none, acceptOnClose := a } shutdown s0
        (cs.map (fun c => Action.accept (.conn c)) ++ [.accept (.fail e)]) = some (.ok s) ∧
      s.coordinator = .selecting ∧ s.fromUserClosed = false ∧
      s.world.engine.userInitiated = false ∧ s.world.engine.served = cs ∧
      s.world.engine.accept = .sending none := by
  simp only [launch, StartPluginAtPath, runJSONRPCServer]
  rw [exec_conns cs _ _ rfl]
  simp [exec, step, Engine.onAccept, Engine.acceptFailed, exitSwitch]

/-! ## The external trigger -/

/-- C5 (counterexample): on a started server with no caller task, closing the
stop channel a second time panics, right after the first close and also after the
coordinator has run, while one close alone leaves a running state. -/
theorem second_close_of_stop_panics :
    launch envOk ([] : List (Unit → Unit × Err)) () [.closeStop, .closeStop] =
        some (.error .closeOfClosedChannel) ∧
      launch envOk ([] : List (Unit → Unit × Err)) () [.closeStop, .schedule true, .closeStop] =
        some (.error .closeOfClosedChannel) ∧
      ∃ s, launch envOk ([] : List (Unit → Unit × Err)) () [.closeStop, .schedule true] =
        some (.ok s) ∧ s.coordinator = .finished :=
  ⟨rfl, rfl, _, rfl, rfl⟩

/-- C5 (amended): on a started server, a run in which the stop channel is closed
at most once never panics, and every run in which it is closed a second time,
whatever happens in between, ends in the panic of closing a closed channel. -/
theorem stop_trigger_is_single_use {σ : Type} (env : Env)
    (shutdown : List (σ → σ × Err)) (s0 : σ) (sched : List Action)
    (hreg : env.register = none) (hlis : env.listen = none) :
    (sched.count .closeStop ≤ 1 → ∃ s, launch env shutdown s0 sched = some (.ok s)) ∧
      (2 ≤ sched.count .closeStop →
        launch env shutdown s0 sched = some (.error .closeOfClosedChannel)) := by
  refine ⟨fun h => ?_, fun h => launch_double_close env shutdown s0 sched hreg hlis h⟩
  obtain ⟨s, h1, _, _⟩ := launch_inv env shutdown s0 sched hreg hlis h
  exact ⟨s, h1⟩

/-- C5 (amended) at a concrete input. -/
theorem stop_trigger_is_single_use_witness :
    (([.closeStop, .signal .SIGINT, .schedule false, .closeStop] : List Action).count
          .closeStop ≤ 1 →
        ∃ s, launch envOk [okTask 1] []
          [.closeStop, .signal .SIGINT, .schedule false, .closeStop] = some (.ok s)) ∧
      (2 ≤ ([.closeStop, .signal .SIGINT, .schedule false, .closeStop] : List Action).count
          .closeStop →
        launch envOk [okTask 1] [] [.closeStop, .signal .SIGINT, .schedule false, .closeStop] =
          some (.error .closeOfClosedChannel)) :=
  stop_trigger_is_single_use envOk [okTask 1] []
    [.closeStop, .signal .SIGINT, .schedule false, .closeStop] rfl rfl

/-- The arrival orders of one external trigger and one signal, with the
coordinator scheduled at any of the points that follow a trigger: each closes the
stop channel once and fires. -/
theorem arrival_orders_fire (sg : Signal) (b c : Bool) :
    (fires [.closeStop, .schedule b, .signal sg, .schedule c] = true ∧
      fires [.signal sg, .schedule b, .closeStop, .schedule c] = true ∧
      fires [.closeStop, .signal sg, .schedule b] = true ∧
      fires [.signal sg, .closeStop, .schedule b] = true) ∧
    (([.closeStop, .schedule b, .signal sg, .schedule c] : List Action).count .closeStop ≤ 1 ∧
      ([.signal sg, .schedule b, .closeStop, .schedule c] : List Action).count .closeStop ≤ 1 ∧
      ([.closeStop, .signal sg, .schedule b] : List Action).count .closeStop ≤ 1 ∧
      ([.signal sg, .closeStop, .schedule b] : List Action).count .closeStop ≤ 1) := by
  refine ⟨⟨rfl, rfl, rfl, rfl⟩, ?_, ?_, ?_, ?_⟩ <;> simp [List.count_cons]

/-- C6: on a started server, in every run in which the stop channel is closed at
most once and the coordinator is scheduled after some trigger (external close or
signal, in any order, any number of signals, any choice of `select` when both are
ready), the coordinator has left its `select` and the positions invoked over the
whole run are `0, 1, .., m - 1` for one `m` between 1 and the length of the
slice: one front-to-back pass, no position twice, the pass not skipped. -/
theorem trigger_race_runs_sequence_once {σ : Type} (env : Env)
    (shutdown : List (σ → σ × Err)) (s0 : σ) (sched : List Action)
    (hreg : env.register = none) (hlis : env.listen = none)
    (hone : sched.count .closeStop ≤ 1) (hrun : fires sched = true) :
    ∃ s, launch env shutdown s0 sched = some (.ok s) ∧ s.coordinator ≠ .selecting ∧
      ∃ m, 1 ≤ m ∧ m ≤ shutdown.length + 1 ∧ invoked s.world.trace = List.range m := by
  obtain ⟨s, h1, h2, h3⟩ := launch_inv env shutdown s0 sched hreg hlis hone
  have h4 : 2 ≤ s.stage := by
    simp only [fires, decide_eq_true_eq] at hrun
    omega
  obtain ⟨hc, ⟨_, htr, _⟩, _⟩ := inv_ran env shutdown s0 s h2 h4
  obtain ⟨m, g1, g2, g3⟩ := pass_invoked shutdown 0 s0
  exact ⟨s, h1, hc, m, g1, g2, by rw [htr, g3, List.range_eq_range']⟩

/-- C6 at a concrete input: the external close and a signal are both pending
when the coordinator selects, and it is scheduled twice. -/
theorem trigger_race_runs_sequence_once_witness :
    ∃ s, launch envOk [okTask 1, okTask 2] []
        [.closeStop, .signal .SIGINT, .schedule true, .schedule false] = some (.ok s) ∧
      s.coordinator ≠ .selecting ∧
      ∃ m, 1 ≤ m ∧ m ≤ [okTask 1, okTask 2].length + 1 ∧ invoked s.world.trace = List.range m :=
  trigger_race_runs_sequence_once envOk [okTask 1, okTask 2] []
    [.closeStop, .signal .SIGINT, .schedule true, .schedule false] rfl rfl (by decide) rfl

/-! ## Where the listener is closed -/

/-- C7 (counterexample): with one caller task that returns an error, after the
trigger the coordinator reports its outcome (the caller receives that error and
the coordinator has finished) and the engine stop channel was never closed: the
listener is still open. -/
theorem failing_task_leaves_listener_open :
    ∃ s, launch envOk [badTask 1 "boom"] [] [.closeStop, .schedule true, .recvOutcome] =
        some (.ok s) ∧
      s.coordinator = .finished ∧ s.received = [some ⟨"boom"⟩] ∧
      s.world.trace.count .closeEngineStop = 0 ∧
      s.world.engine.stopClosed = false ∧ s.world.engine.listenerClosed = false :=
  ⟨_, rfl, rfl, rfl, by decide, rfl, rfl⟩

/-- C7 (amended): on a started server, in every run in which the stop channel is
closed at most once and the coordinator is scheduled after a trigger, the
coordinator has left its `select` and the engine stop channel has been closed
once if every caller-supplied task returned nil, and not at all otherwise. -/
theorem listener_closed_once_iff_callers_succeed {σ : Type} (env : Env)
    (shutdown : List (σ → σ × Err)) (s0 : σ) (sched : List Action)
    (hreg : env.register = none) (hlis : env.listen = none)
    (hone : sched.count .closeStop ≤ 1) (hrun : fires sched = true) :
    ∃ s, launch env shutdown s0 sched = some (.ok s) ∧ s.coordinator ≠ .selecting ∧
      s.world.trace.count .closeEngineStop = if allSucceed shutdown s0 = true then 1 else 0 := by
  obtain ⟨s, h1, h2, h3⟩ := launch_inv env shutdown s0 sched hreg hlis hone
  have h4 : 2 ≤ s.stage := by
    simp only [fires, decide_eq_true_eq] at hrun
    omega
  obtain ⟨hc, ⟨_, htr, _⟩, _⟩ := inv_ran env shutdown s0 s h2 h4
  exact ⟨s, h1, hc, by rw [htr, pass_count_close]⟩

/-- C7 (amended) at a concrete input: the first of two tasks fails. -/
theorem listener_closed_once_iff_callers_succeed_witness :
    ∃ s, launch envOk [badTask 1 "boom", okTask 2] [] [.signal .SIGHUP, .schedule true] =
        some (.ok s) ∧ s.coordinator ≠ .selecting ∧
      s.world.trace.count .closeEngineStop =
        if allSucceed [badTask 1 "boom", okTask 2] [] = true then 1 else 0 :=
  listener_closed_once_iff_callers_succeed envOk [badTask 1 "boom", okTask 2] []
    [.signal .SIGHUP, .schedule true] rfl rfl (by decide) rfl

/-- C8 (counterexample): with one succeeding caller task, after the trigger the
caller task (position 0) is invoked before the engine stop channel is closed. -/
theorem caller_task_runs_before_listener_close :
    ∃ s, launch envOk [okTask 1] [] [.closeStop, .schedule true] = some (.ok s) ∧
      s.world.trace =
        [.invoke 0, .invoke 1, .closeEngineStop, .recvEngineStopped none] ∧
      s.world.user = [1] ∧
      s.world.trace.indexOf (.invoke 0) < s.world.trace.indexOf .closeEngineStop :=
  ⟨_, rfl, rfl, rfl, by decide⟩

/-- C8 (amended): on a started server the listener-close closure is the last
element of the slice, after the caller's functions, and in every run in which the
stop channel is closed at most once and the coordinator is scheduled after a
trigger, wherever the close of the engine stop channel occurs in the run, every
caller-supplied task has been invoked before it and no task is invoked after it. -/
theorem listener_closed_after_every_caller_task {σ : Type} (env : Env)
    (shutdown : List (σ → σ × Err)) (s0 : σ) (sched : List Action)
    (hreg : env.register = none) (hlis : env.listen = none)
    (hone : sched.count .closeStop ≤ 1) (hrun : fires sched = true) :
    ∃ s, launch env shutdown s0 sched = some (.ok s) ∧
      s.tasks = shutdown.map callerTask ++ [closeListenerTask env.acceptOnClose] ∧
      ∀ before after : List Event, s.world.trace = before ++ Event.closeEngineStop :: after →
        (∀ j, j < shutdown.length → Event.invoke j ∈ before) ∧
        (∀ j, Event.invoke j ∉ after) := by
  obtain ⟨s, h1, h2, h3⟩ := launch_inv env shutdown s0 sched hreg hlis hone
  have h4 : 2 ≤ s.stage := by
    simp only [fires, decide_eq_true_eq] at hrun
    omega
  obtain ⟨_, ⟨_, htr, _⟩, ht⟩ := inv_ran env shutdown s0 s h2 h4
  refine ⟨s, h1, ht, fun before after hsplit => ?_⟩
  rw [htr] at hsplit
  obtain ⟨g1, g2⟩ := pass_close_after_callers shutdown 0 s0 before after hsplit
  exact ⟨fun j hj => g1 j (Nat.zero_le _) (by omega), g2⟩

/-- C8 (amended) at a concrete input. -/
theorem listener_closed_after_every_caller_task_witness :
    ∃ s, launch envOk [okTask 1, okTask 2] [] [.closeStop, .schedule true] = some (.ok s) ∧
      s.tasks = [okTask 1, okTask 2].map callerTask ++ [closeListenerTask envOk.acceptOnClose] ∧
      ∀ before after : List Event, s.world.trace = before ++ Event.closeEngineStop :: after →
        (∀ j, j < [okTask 1, okTask 2].length → Event.invoke j ∈ before) ∧
        (∀ j, Event.invoke j ∉ after) :=
  listener_closed_after_every_caller_task envOk [okTask 1, okTask 2] []
    [.closeStop, .schedule true] rfl rfl (by decide) rfl

/-! ## Start-up errors -/

/-- C9: if `Register` fails with `e`, or `Register` succeeds and `net.Listen`
fails with `e`, then `StartPluginAtPath` starts no goroutine (no closer, no
accept loop, no coordinator) and returns `e` with no server behind the channels;
when the failure is that of `net.Listen`, `runJSONRPCServer` itself starts no
goroutine and returns `e`; and no schedule has a server to act on, so no shutdown
task is ever invoked. -/
theorem startup_error_returned_synchronously {σ : Type} (env : Env)
    (shutdown : List (σ → σ × Err)) (s0 : σ) (e : GoError)
    (h : env.register = some e ∨ (env.register = none ∧ env.listen = some e)) :
    StartPluginAtPath env shutdown s0 = ([], .error e) ∧
      (env.listen = some e → runJSONRPCServer env = ([], .error e)) ∧
      ∀ sched, launch env shutdown s0 sched = none := by
  have hl : env.listen = some e → runJSONRPCServer env = ([], .error e) := by
    intro h2
    simp [runJSONRPCServer, h2]
  rcases h with h1 | ⟨h1, h2⟩
  · exact ⟨by simp [StartPluginAtPath, h1], hl, fun sched => by simp [launch, StartPluginAtPath, h1]⟩
  · exact ⟨by simp [StartPluginAtPath, h1, hl h2], hl,
      fun sched => by simp [launch, StartPluginAtPath, h1, hl h2]⟩

/-- C9 at a concrete input: the socket path is already bound. -/
theorem startup_error_returned_synchronously_witness :
    StartPluginAtPath { envOk with listen := some ⟨"bind: address already in use"⟩ }
        [okTask 1] [] = ([], .error ⟨"bind: address already in use"⟩) ∧
      (({ envOk with listen := some ⟨"bind: address already in use"⟩ } : Env).listen =
          some ⟨"bind: address already in use"⟩ →
        runJSONRPCServer { envOk with listen := some ⟨"bind: address already in use"⟩ } =
          ([], .error ⟨"bind: address already in use"⟩)) ∧
      ∀ sched, launch { envOk with listen := some ⟨"bind: address already in use"⟩ }
        [okTask 1] [] sched = none :=
  startup_error_returned_synchronously
    { envOk with listen := some ⟨"bind: address already in use"⟩ } [okTask 1] []
    ⟨"bind: address already in use"⟩ (Or.inr ⟨rfl, rfl⟩)

/-! ## The Group RPC adapter -/

namespace GroupRPC

/-- C10: each of the five RPC methods calls the plugin operation of the same name
on the fields of the request (`Spec` and `Pretend`, or `ID`; nothing for
`InspectGroups`), leaves the plugin in the state that call left it in, and returns
exactly the error the plugin returned (so an error if and only if the plugin
returned one); when the plugin returned nil the response holds the value the
plugin returned (`Details`, `Description`, `Groups`) or `OK = true`, and when it
returned an error the response is as passed in. -/
theorem group_rpc_methods_forward_to_plugin {S I D π : Type} (p : Plugin S I D π) (st : π)
    (creq : CommitGroupRequest S) (cresp : CommitGroupResponse)
    (freq : FreeGroupRequest I) (fresp : FreeGroupResponse)
    (dreq : DescribeGroupRequest I) (dresp : DescribeGroupResponse D)
    (xreq : DestroyGroupRequest I) (xresp : DestroyGroupResponse)
    (ireq : InspectGroupsRequest I) (iresp : InspectGroupsResponse S) :
    (((PluginServer p).CommitGroup creq cresp st).1.2 =
        (p.CommitGroup creq.Spec creq.Pretend st).1.2 ∧
      ((PluginServer p).CommitGroup creq cresp st).2 =
        (p.CommitGroup creq.Spec creq.Pretend st).2 ∧
      ((p.CommitGroup creq.Spec creq.Pretend st).1.2 = none →
        ((PluginServer p).CommitGroup creq cresp st).1.1.Details =
          (p.CommitGroup creq.Spec creq.Pretend st).1.1) ∧
      ((p.CommitGroup creq.Spec creq.Pretend st).1.2 ≠ none →
        ((PluginServer p).CommitGroup creq cresp st).1.1 = cresp)) ∧
    (((PluginServer p).FreeGroup freq fresp st).1.2 = (p.FreeGroup freq.ID st).1 ∧
      ((PluginServer p).FreeGroup freq fresp st).2 = (p.FreeGroup freq.ID st).2 ∧
      ((p.FreeGroup freq.ID st).1 = none →
        ((PluginServer p).FreeGroup freq fresp st).1.1.OK = true) ∧
      ((p.FreeGroup freq.ID st).1 ≠ none →
        ((PluginServer p).FreeGroup freq fresp st).1.1 = fresp)) ∧
    (((PluginServer p).DescribeGroup dreq dresp st).1.2 = (p.DescribeGroup dreq.ID st).1.2 ∧
      ((PluginServer p).DescribeGroup dreq dresp st).2 = (p.DescribeGroup dreq.ID st).2 ∧
      ((p.DescribeGroup dreq.ID st).1.2 = none →
        ((PluginServer p).DescribeGroup dreq dresp st).1.1.Description =
          (p.DescribeGroup dreq.ID st).1.1) ∧
      ((p.DescribeGroup dreq.ID st).1.2 ≠ none →
        ((PluginServer p).DescribeGroup dreq dresp st).1.1 = dresp)) ∧
    (((PluginServer p).DestroyGroup xreq xresp st).1.2 = (p.DestroyGroup xreq.ID st).1 ∧
      ((PluginServer p).DestroyGroup xreq xresp st).2 = (p.DestroyGroup xreq.ID st).2 ∧
      ((p.DestroyGroup xreq.ID st).1 = none →
        ((PluginServer p).DestroyGroup xreq xresp st).1.1.OK = true) ∧
      ((p.DestroyGroup xreq.ID st).1 ≠ none →
        ((PluginServer p).DestroyGroup xreq xresp st).1.1 = xresp)) ∧
    (((PluginServer p).InspectGroups ireq iresp st).1.2 = (p.InspectGroups st).1.2 ∧
      ((PluginServer p).InspectGroups ireq iresp st).2 = (p.InspectGroups st).2 ∧
      ((p.InspectGroups st).1.2 = none →
        ((PluginServer p).InspectGroups ireq iresp st).1.1.Groups = (p.InspectGroups st).1.1) ∧
      ((p.InspectGroups st).1.2 ≠ none →
        ((PluginServer p).InspectGroups ireq iresp st).1.1 = iresp)) := by
  refine ⟨?_, ?_, ?_, ?_, ?_⟩
  · rcases h : p.CommitGroup creq.Spec creq.Pretend st with ⟨⟨d, _ | e⟩, st1⟩ <;>
      simp [Group.CommitGroup, PluginServer, h]
  · rcases h : p.FreeGroup freq.ID st with ⟨_ | e, st1⟩ <;>
      simp [Group.FreeGroup, PluginServer, h]
  · rcases h : p.DescribeGroup dreq.ID st with ⟨⟨d, _ | e⟩, st1⟩ <;>
      simp [Group.DescribeGroup, PluginServer, h]
  · rcases h : p.DestroyGroup xreq.ID st with ⟨_ | e, st1⟩ <;>
      simp [Group.DestroyGroup, PluginServer, h]
  · rcases h : p.InspectGroups st with ⟨⟨d, _ | e⟩, st1⟩ <;>
      simp [Group.InspectGroups, PluginServer, h]

/-- The adapter on the sample plugin: a failing `FreeGroup` hands the error back
and leaves the response alone; a succeeding `CommitGroup` fills `Details`. -/
theorem sample_plugin_calls :
    (PluginServer samplePlugin).FreeGroup ⟨0⟩ ⟨false⟩ 3 =
        ((⟨false⟩, some ⟨"no such group"⟩), 3) ∧
      (PluginServer samplePlugin).FreeGroup ⟨7⟩ ⟨false⟩ 3 = ((⟨true⟩, none), 4) ∧
      (PluginServer samplePlugin).CommitGroup ⟨"web", false⟩ ⟨""⟩ 3 =
        ((⟨"committed web"⟩, none), 4) := by
  refine ⟨?_, ?_, ?_⟩ <;>
    simp [PluginServer, Group.FreeGroup, Group.CommitGroup, samplePlugin]

end GroupRPC

end Infrakit
